import Mathlib

/-!
Verification of the burn backend-comparison harness against its design
specification. The definitions below are a shallow embedding of the three
source files of the repository:

- src/backend-comparison/src/burnbenchapp/base.rs (CLI orchestration:
  command_run, run_cargo, the backend and benchmark enumerations),
- src/backend-comparison/benches/unary.rs (the UnaryBenchmark workload),
- src/backend-comparison/src/burnbenchapp/auth.rs (the token cache).

Effectful Rust code is embedded as pure functions that return an explicit
trace of the observable events, or thread an explicit state (a file-system
value for auth.rs). Machine integers are Nat or Int.
-/

/-! ## Embedding of base.rs -/

/-- The BackendValues enum of base.rs, one constructor per variant. -/
inductive BackendValues
  | candleCpu
  | candleCuda
  | candleMetal
  | ndarray
  | ndarrayBlasAccelerate
  | ndarrayBlasNetlib
  | ndarrayBlasOpenblas
  | tchCpu
  | tchGpu
  | wgpu
  | wgpuFusion
deriving DecidableEq, Repr

/-- The BenchmarkValues enum of base.rs, one constructor per variant. -/
inductive BenchmarkValues
  | binary
  | customGelu
  | data
  | matmul
  | unary
deriving DecidableEq, Repr

/-- Observable events of command_run, in the order the code emits them:
the empty-selection report, the announcement of the total number of
combinations, the announcement of one (benchmark, backend) cell, and the
three App lifecycle calls. -/
inductive RunEvent
  | reportEmptySelection
  | announceTotal (total : Nat)
  | announceCell (bench : BenchmarkValues) (backend : BackendValues)
  | appInit
  | appRun (benches : List BenchmarkValues) (backends : List BackendValues)
  | appCleanup
deriving DecidableEq, Repr

/-- The nested println loop of command_run (base.rs lines 156-160): for each
backend in order, for each bench in order, announce the cell. -/
def cellAnnouncements (backends : List BackendValues)
    (benches : List BenchmarkValues) : List RunEvent :=
  backends.flatMap fun backend =>
    benches.map fun bench => RunEvent.announceCell bench backend

/-- command_run of base.rs (lines 146-167) as a trace of its observable
events. If either axis of the selection is empty it reports and returns;
otherwise it announces the total, announces every cell of the cross
product, then creates the App and calls init, run and cleanup. -/
def command_run (backends : List BackendValues)
    (benches : List BenchmarkValues) : List RunEvent :=
  if backends.isEmpty || benches.isEmpty then
    [RunEvent.reportEmptySelection]
  else
    RunEvent.announceTotal (backends.length * benches.length) ::
      (cellAnnouncements backends benches ++
        [RunEvent.appInit, RunEvent.appRun benches backends,
          RunEvent.appCleanup])

/-- The exit status of a child process: the exit code when the process
exited normally, none when it was terminated by a signal. -/
structure ExitStatus where
  code : Option Int
deriving DecidableEq, Repr

/-- Rust ExitStatus::success: true exactly when the exit code is 0. -/
def ExitStatus.success (s : ExitStatus) : Bool :=
  s.code = some 0

/-- What run_cargo does after the spawned cargo process finishes: either it
returns normally to its caller, or it terminates the whole burnbench
process with the given exit code. -/
inductive RunCargoOutcome
  | completed
  | processExit (code : Int)
deriving DecidableEq, Repr

/-- run_cargo of base.rs (lines 170-183), after the child exits with the
given status: on success it returns; otherwise it calls
std::process::exit(status.code().unwrap_or(1)). -/
def run_cargo (status : ExitStatus) : RunCargoOutcome :=
  if status.success then
    RunCargoOutcome.completed
  else
    RunCargoOutcome.processExit (status.code.getD 1)

/-! ## Embedding of benches/unary.rs -/

/-- Tensors as a free term model: prepare produces a random tensor on a
device, and the opaque backend operation B::tanh produces a new tensor from
its argument. Devices are opaque identifiers embedded as Nat. -/
inductive Tensor
  | random (shape : List Nat) (device : Nat)
  | tanhOf (t : Tensor)
deriving DecidableEq, Repr

/-- One observable backend call issued by the benchmark. -/
inductive BackendOp
  | tanh (arg : Tensor)
deriving DecidableEq, Repr

/-- The UnaryBenchmark struct of unary.rs: a shape, a repeat count and a
device, as stored by the derived constructor. -/
structure UnaryBenchmark where
  shape : List Nat
  num_repeats : Nat
  device : Nat
deriving DecidableEq, Repr

/-- Benchmark::name for UnaryBenchmark (unary.rs lines 16-18): the constant
string "unary". -/
def UnaryBenchmark.name (_b : UnaryBenchmark) : String :=
  "unary"

/-- Benchmark::num_repeats for UnaryBenchmark (unary.rs lines 24-26):
returns the stored num_repeats field. -/
def UnaryBenchmark.num_repeats_fn (b : UnaryBenchmark) : Nat :=
  b.num_repeats

/-- Benchmark::shapes for UnaryBenchmark (unary.rs lines 20-22). -/
def UnaryBenchmark.shapes (b : UnaryBenchmark) : List (List Nat) :=
  [b.shape]

/-- Benchmark::prepare for UnaryBenchmark (unary.rs lines 35-37): a random
tensor of the stored shape on the stored device. -/
def UnaryBenchmark.prepare (b : UnaryBenchmark) : Tensor :=
  Tensor.random b.shape b.device

/-- Benchmark::execute for UnaryBenchmark (unary.rs lines 28-33):
for _ in 0..self.num_repeats() it calls B::tanh(args.clone().into_primitive()).
The receiver is a shared borrow and each iteration clones args, so the
embedding threads the benchmark value and the argument tensor through the
loop explicitly and records the issued backend calls; the loop body leaves
both unchanged and appends one tanh call on the (cloned) argument. -/
def UnaryBenchmark.execute (b : UnaryBenchmark) (args : Tensor) :
    UnaryBenchmark × Tensor × List BackendOp :=
  (List.range b.num_repeats_fn).foldl
    (fun acc _ => (acc.1, acc.2.1, acc.2.2 ++ [BackendOp.tanh acc.2.1]))
    (b, args, [])

/-- Repeated invocation of execute with the state it returns: the benchmark
value and the prepared input that survive k successive calls. -/
def iterateExecute (b : UnaryBenchmark) (args : Tensor) :
    Nat → UnaryBenchmark × Tensor
  | 0 => (b, args)
  | Nat.succ k =>
    iterateExecute (b.execute args).1 (b.execute args).2.1 k

/-- The benchmark instance constructed by the bench function of unary.rs
(lines 44-52): shape [32, 512, 1024] and num_repeats 10 on the given
device. -/
def bench_instance (device : Nat) : UnaryBenchmark :=
  UnaryBenchmark.mk [32, 512, 1024] 10 device

/-! ## Embedding of auth.rs -/

/-- The newline character, used by the model of str::lines. -/
def nlChar : Char := Char.ofNat 10

/-- The carriage-return character, used by the model of str::lines. -/
def crChar : Char := Char.ofNat 13

/-- A regular file: its textual content and its unix permission bits. -/
structure FsFile where
  content : String
  mode : Nat
deriving DecidableEq, Repr

/-- A unix file system fragment: regular files keyed by absolute path
(later entries shadowed by earlier ones) and the set of directories that
exist. -/
structure FileSystem where
  files : List (String × FsFile)
  dirs : List String
deriving DecidableEq, Repr

/-- Look up the file stored at a path, if any. -/
def FileSystem.lookup (fs : FileSystem) (path : String) : Option FsFile :=
  (fs.files.find? fun p => p.1 == path).map Prod.snd

/-- Store a file at a path, replacing any previous file there. -/
def FileSystem.writeFile (fs : FileSystem) (path : String) (f : FsFile) :
    FileSystem :=
  { fs with files := (path, f) :: fs.files.filter fun p => !(p.1 == path) }

/-- fs::create_dir_all: ensures the directory exists; files are
untouched. -/
def create_dir_all (fs : FileSystem) (path : String) : FileSystem :=
  { fs with dirs := path :: fs.dirs }

/-- File::create: creates (or truncates) the file at the path with empty
content and the default creation mode 0o644. -/
def file_create (fs : FileSystem) (path : String) : FileSystem :=
  fs.writeFile path (FsFile.mk "" 420)

/-- write! on an open file handle: appends the string to the file's
content. save_token only writes to the file it just created. -/
def write_str (fs : FileSystem) (path : String) (s : String) : FileSystem :=
  match fs.lookup path with
  | some f => fs.writeFile path (FsFile.mk (f.content ++ s) f.mode)
  | none => fs

/-- fs::set_permissions: replaces the permission bits of an existing
file. -/
def set_permissions (fs : FileSystem) (path : String) (mode : Nat) :
    FileSystem :=
  match fs.lookup path with
  | some f => fs.writeFile path (FsFile.mk f.content mode)
  | none => fs

/-- get_auth_cache_file_path of auth.rs (lines 16-23), outside cfg(test):
home_dir/.cache/burn/burnbench/token.txt, parametrized by the home
directory. -/
def get_auth_cache_file_path (home : String) : String :=
  home ++ "/.cache/burn/burnbench/token.txt"

/-- The parent directory of the auth cache file, as passed to
fs::create_dir_all by save_token. -/
def auth_cache_dir (home : String) : String :=
  home ++ "/.cache/burn/burnbench"

/-- save_token of auth.rs (lines 54-66): create the cache directory, create
(truncating) the cache file, write exactly the token into it, then on unix
set its permissions to 0o600. -/
def save_token (home token : String) (fs : FileSystem) : FileSystem :=
  let path := get_auth_cache_file_path home
  let fs1 := create_dir_all fs (auth_cache_dir home)
  let fs2 := file_create fs1 path
  let fs3 := write_str fs2 path token
  set_permissions fs3 path 0o600

/-- The first line of a character list together with a flag telling whether
the line was terminated by a newline character. -/
def firstLineData : List Char → List Char × Bool
  | [] => ([], false)
  | c :: cs =>
    if c = nlChar then ([], true)
    else
      let r := firstLineData cs
      (c :: r.1, r.2)

/-- Strip one carriage return from the end of a line, as Rust str::lines
does to a line that was terminated by a newline. -/
def stripCR (l : List Char) : List Char :=
  if l.getLast? = some crChar then l.dropLast else l

/-- Model of contents.lines().next().map(str::to_string): none on the empty
string; otherwise the first line, with a trailing carriage return removed
only when the line was terminated by a newline character. -/
def linesNext (s : String) : Option String :=
  if s.data = [] then none
  else
    let r := firstLineData s.data
    some (String.mk (if r.2 then stripCR r.1 else r.1))

/-- get_token_from_cache of auth.rs (lines 69-75): read the cache file to a
string and return its first line; any read failure (in the model: an absent
file) yields none. -/
def get_token_from_cache (home : String) (fs : FileSystem) : Option String :=
  match fs.lookup (get_auth_cache_file_path home) with
  | some f => linesNext f.content
  | none => none

/-! ## Helper lemmas -/

theorem execute_foldl_invariant (b : UnaryBenchmark) (args : Tensor)
    (ops : List BackendOp) (l : List Nat) :
    l.foldl (fun acc _ => (acc.1, acc.2.1, acc.2.2 ++ [BackendOp.tanh acc.2.1]))
        (b, args, ops)
      = (b, args, ops ++ List.replicate l.length (BackendOp.tanh args)) := by
  induction l generalizing ops with
  | nil => simp
  | cons x xs ih =>
    simp [List.foldl_cons, ih, List.replicate_succ]

theorem execute_eq (b : UnaryBenchmark) (args : Tensor) :
    b.execute args
      = (b, args, List.replicate b.num_repeats (BackendOp.tanh args)) := by
  unfold UnaryBenchmark.execute
  rw [execute_foldl_invariant]
  simp [UnaryBenchmark.num_repeats_fn]

/-! ## Claims about unary.rs -/

/-- C2, counterexample: the claim says one invocation of execute applies
tanh to the prepared tensor exactly once, independently of num_repeats. On
the instance with num_repeats = 3 a single invocation of execute issues
three tanh calls, not one. -/
theorem execute_single_tanh_counterexample :
    ((UnaryBenchmark.mk [2] 3 0).execute (Tensor.random [2] 0)).2.2.length = 3 ∧
    ¬ ((UnaryBenchmark.mk [2] 3 0).execute (Tensor.random [2] 0)).2.2.length = 1 := by
  decide

/-- C2 (amended): one invocation of execute applies tanh to the prepared
tensor exactly num_repeats() times — once per iteration of its internal
for loop — rather than exactly once. -/
theorem execute_applies_tanh_num_repeats_times (b : UnaryBenchmark)
    (args : Tensor) :
    (b.execute args).2.2
        = List.replicate b.num_repeats_fn (BackendOp.tanh args) ∧
    (b.execute args).2.2.length = b.num_repeats_fn := by
  rw [execute_eq]
  simp [UnaryBenchmark.num_repeats_fn]

/-- C5, counterexample: the claim says num_repeats() returns a value ≥ 1
for every UnaryBenchmark instance, but the derived constructor accepts any
usize: the instance built with num_repeats = 0 returns 0. -/
theorem num_repeats_positive_counterexample :
    (UnaryBenchmark.mk [2] 0 0).num_repeats_fn = 0 ∧
    ¬ 1 ≤ (UnaryBenchmark.mk [2] 0 0).num_repeats_fn := by
  decide

/-- C5 (amended): num_repeats() returns exactly the stored num_repeats
field, so it is ≥ 1 only when the instance was constructed with a positive
value; the one instance the code constructs (in bench, with num_repeats =
10) does satisfy ≥ 1. -/
theorem num_repeats_returns_field (b : UnaryBenchmark) (device : Nat) :
    b.num_repeats_fn = b.num_repeats ∧
    (bench_instance device).num_repeats_fn = 10 ∧
    1 ≤ (bench_instance device).num_repeats_fn := by
  refine ⟨rfl, rfl, ?_⟩
  show 1 ≤ 10
  omega

/-- C6: execute is idempotent across repeated invocation with the same
prepared input: the benchmark value (shape, num_repeats, device) and the
argument tensor that come out of an invocation are exactly the ones that
went in, for any number k of successive invocations, and a re-invocation
from the resulting state issues exactly the same backend calls as the
first invocation. -/
theorem execute_idempotent (b : UnaryBenchmark) (args : Tensor) (k : Nat) :
    iterateExecute b args k = (b, args) ∧
    (b.execute args).1.execute (b.execute args).2.1 = b.execute args := by
  constructor
  · induction k with
    | zero => rfl
    | succ n ih =>
      rw [iterateExecute, execute_eq]
      exact ih
  · simp [execute_eq]

/-- C7: name() returns the same non-empty string "unary" for every
UnaryBenchmark instance, regardless of its shape, num_repeats or
device. -/
theorem name_stable_unary (b₁ b₂ : UnaryBenchmark) :
    b₁.name = "unary" ∧ b₁.name ≠ "" ∧ b₁.name = b₂.name := by
  refine ⟨rfl, ?_, rfl⟩
  show ("unary" : String) ≠ ""
  decide

/-! ## Claims about run_cargo -/

/-- C1, counterexample: the claim says that on a non-success exit status of
the child cargo process the orchestration records the cell as failed and
continues with remaining cells. On exit status 1 (not a success), run_cargo
does not return to its caller: it terminates the whole process with exit
code 1. -/
theorem run_cargo_continue_counterexample :
    (ExitStatus.mk (some 1)).success = false ∧
    run_cargo (ExitStatus.mk (some 1)) ≠ RunCargoOutcome.completed ∧
    run_cargo (ExitStatus.mk (some 1)) = RunCargoOutcome.processExit 1 := by
  decide

/-- C1 (amended): when the child cargo process exits with a non-success
status, run_cargo aborts the whole burnbench process by calling
std::process::exit with the child's exit code (or 1 when there is none),
so a single backend's failure aborts the rest of the selection matrix. -/
theorem run_cargo_exits_on_failure (s : ExitStatus)
    (h : s.success = false) :
    run_cargo s = RunCargoOutcome.processExit (s.code.getD 1) := by
  simp [run_cargo, h]

/-- Witness for C1 (amended) at the concrete exit status 2. -/
theorem run_cargo_exits_on_failure_witness :
    run_cargo (ExitStatus.mk (some 2)) = RunCargoOutcome.processExit 2 :=
  run_cargo_exits_on_failure (ExitStatus.mk (some 2)) (by decide)

/-! ## Claims about command_run -/

/-- C3: for every RunArgs whose backend list or benchmark list is empty,
command_run reports the empty selection and returns as a no-op: its trace
is exactly the report, and in particular contains no App::init, App::run or
App::cleanup event, so no App is ever created or driven. -/
theorem command_run_empty_selection_noop (backends : List BackendValues)
    (benches : List BenchmarkValues)
    (h : backends = [] ∨ benches = []) :
    command_run backends benches = [RunEvent.reportEmptySelection] ∧
    ∀ e ∈ command_run backends benches,
      e ≠ RunEvent.appInit ∧
      (∀ bn bk, e ≠ RunEvent.appRun bn bk) ∧
      e ≠ RunEvent.appCleanup := by
  have hempty : (backends.isEmpty || benches.isEmpty) = true := by
    rcases h with h | h <;> simp [h]
  have htrace : command_run backends benches
      = [RunEvent.reportEmptySelection] := by
    simp [command_run, hempty]
  refine ⟨htrace, ?_⟩
  intro e he
  rw [htrace] at he
  simp at he
  subst he
  refine ⟨by simp, fun bn bk => by simp, by simp⟩

/-- Witness for C3 at the concrete selection with no backends. -/
theorem command_run_empty_selection_noop_witness :
    command_run [] [BenchmarkValues.unary]
      = [RunEvent.reportEmptySelection] :=
  (command_run_empty_selection_noop [] [BenchmarkValues.unary]
    (Or.inl rfl)).1

theorem count_announceCell_map (benches : List BenchmarkValues)
    (bk bk0 : BackendValues) (bn0 : BenchmarkValues) :
    ((benches.map fun bench => RunEvent.announceCell bench bk).count
        (RunEvent.announceCell bn0 bk0))
      = if bk = bk0 then benches.count bn0 else 0 := by
  induction benches with
  | nil => simp
  | cons b bs ih =>
    by_cases hbk : bk = bk0
    · subst hbk
      by_cases hbn : b = bn0
      · subst hbn
        simp [List.count_cons, ih]
      · simp [List.count_cons, ih, hbn]
    · simp [List.count_cons, ih, hbk]

theorem count_announceCell_cells (backends : List BackendValues)
    (benches : List BenchmarkValues)
    (bk0 : BackendValues) (bn0 : BenchmarkValues) :
    (cellAnnouncements backends benches).count
        (RunEvent.announceCell bn0 bk0)
      = backends.count bk0 * benches.count bn0 := by
  induction backends with
  | nil => simp [cellAnnouncements]
  | cons b bs ih =>
    rw [cellAnnouncements, List.flatMap_cons, List.count_append]
    rw [cellAnnouncements] at ih
    rw [ih, count_announceCell_map]
    by_cases hbk : b = bk0
    · subst hbk
      simp [List.count_cons, Nat.succ_mul, Nat.add_comm]
    · simp [List.count_cons, hbk]

theorem cellAnnouncements_length (backends : List BackendValues)
    (benches : List BenchmarkValues) :
    (cellAnnouncements backends benches).length
      = backends.length * benches.length := by
  induction backends with
  | nil => simp [cellAnnouncements]
  | cons b bs ih =>
    rw [cellAnnouncements, List.flatMap_cons, List.length_append]
    rw [cellAnnouncements] at ih
    rw [ih, List.length_map, List.length_cons, Nat.succ_mul, Nat.add_comm]

/-- C4: for every non-empty selection whose two axes have no duplicate
entries, command_run announces a total of backends.len() * benches.len()
combinations, the announced cells are exactly that many, each (benchmark,
backend) pair of the selection is announced exactly once in the whole
trace, and all cell announcements come before the App lifecycle events
(the trace is the total announcement, then the cells, then init, run,
cleanup). -/
theorem command_run_cross_product (backends : List BackendValues)
    (benches : List BenchmarkValues)
    (hA : backends ≠ []) (hB : benches ≠ [])
    (hndA : backends.Nodup) (hndB : benches.Nodup) :
    command_run backends benches
      = RunEvent.announceTotal (backends.length * benches.length) ::
          (cellAnnouncements backends benches ++
            [RunEvent.appInit, RunEvent.appRun benches backends,
              RunEvent.appCleanup]) ∧
    (cellAnnouncements backends benches).length
      = backends.length * benches.length ∧
    ∀ bk ∈ backends, ∀ bn ∈ benches,
      (command_run backends benches).count
          (RunEvent.announceCell bn bk) = 1 := by
  have hempty : (backends.isEmpty || benches.isEmpty) = false := by
    simp [List.isEmpty_iff, hA, hB]
  have htrace : command_run backends benches
      = RunEvent.announceTotal (backends.length * benches.length) ::
          (cellAnnouncements backends benches ++
            [RunEvent.appInit, RunEvent.appRun benches backends,
              RunEvent.appCleanup]) := by
    simp [command_run, hempty]
  refine ⟨htrace, cellAnnouncements_length backends benches, ?_⟩
  intro bk hbk bn hbn
  rw [htrace]
  rw [List.count_cons, List.count_append, count_announceCell_cells]
  rw [List.count_eq_one_of_mem hndA hbk, List.count_eq_one_of_mem hndB hbn]
  simp

/-- Witness for C4 at the concrete selection of two backends and one
benchmark: the pair (unary, wgpu) is announced exactly once. -/
theorem command_run_cross_product_witness :
    (command_run [BackendValues.wgpu, BackendValues.ndarray]
        [BenchmarkValues.unary]).count
      (RunEvent.announceCell BenchmarkValues.unary BackendValues.wgpu)
      = 1 :=
  (command_run_cross_product
    [BackendValues.wgpu, BackendValues.ndarray] [BenchmarkValues.unary]
    (by decide) (by decide) (by decide) (by decide)).2.2
    BackendValues.wgpu (by decide) BenchmarkValues.unary (by decide)

/-! ## Claims about auth.rs -/

theorem lookup_writeFile_self (fs : FileSystem) (path : String)
    (f : FsFile) :
    (fs.writeFile path f).lookup path = some f := by
  simp [FileSystem.lookup, FileSystem.writeFile, List.find?_cons]

theorem write_str_of_lookup (fs : FileSystem) (path s : String)
    (f : FsFile) (h : fs.lookup path = some f) :
    write_str fs path s
      = fs.writeFile path (FsFile.mk (f.content ++ s) f.mode) := by
  unfold write_str
  rw [h]

theorem set_permissions_of_lookup (fs : FileSystem) (path : String)
    (mode : Nat) (f : FsFile) (h : fs.lookup path = some f) :
    set_permissions fs path mode
      = fs.writeFile path (FsFile.mk f.content mode) := by
  unfold set_permissions
  rw [h]

theorem save_token_lookup (home token : String) (fs : FileSystem) :
    (save_token home token fs).lookup (get_auth_cache_file_path home)
      = some (FsFile.mk token 0o600) := by
  simp only [save_token, file_create]
  rw [write_str_of_lookup _ _ _ _ (lookup_writeFile_self _ _ _)]
  rw [set_permissions_of_lookup _ _ _ _ (lookup_writeFile_self _ _ _)]
  rw [lookup_writeFile_self]
  rfl

/-- C8: after save_token(token) returns on a unix system, the credential
cache file at get_auth_cache_file_path() exists, its content is exactly
the token string, and its permission bits are 0o600, for every token
string, every home directory and every prior file-system state. -/
theorem save_token_postcondition (home token : String) (fs : FileSystem) :
    (((save_token home token fs).lookup
        (get_auth_cache_file_path home)).isSome = true) ∧
    (save_token home token fs).lookup (get_auth_cache_file_path home)
      = some (FsFile.mk token 0o600) := by
  rw [save_token_lookup]
  exact ⟨rfl, rfl⟩

theorem firstLineData_no_nl (l : List Char)
    (h : ∀ c ∈ l, c ≠ nlChar) :
    firstLineData l = (l, false) := by
  induction l with
  | nil => rfl
  | cons c cs ih =>
    have hc : c ≠ nlChar := h c (List.mem_cons_self c cs)
    rw [firstLineData, if_neg hc,
      ih fun d hd => h d (List.mem_cons_of_mem c hd)]

theorem linesNext_no_nl (s : String) (hne : s.data ≠ [])
    (h : ∀ c ∈ s.data, c ≠ nlChar) :
    linesNext s = some s := by
  rw [linesNext, if_neg hne, firstLineData_no_nl s.data h]
  rfl

/-- C9: token cache round-trip with last-write-wins. For every non-empty
token string containing no newline character, get_token_from_cache()
after save_token(token) returns Some(token), whatever the file system
held before — in particular whatever token an earlier save had written. -/
theorem save_then_get_roundtrip (home token : String) (fs : FileSystem)
    (h1 : token ≠ "") (h2 : ∀ c ∈ token.data, c ≠ nlChar) :
    get_token_from_cache home (save_token home token fs) = some token := by
  rw [get_token_from_cache, save_token_lookup]
  have hne : token.data ≠ [] := fun hnil => h1 (String.ext hnil)
  exact linesNext_no_nl token hne h2

/-- Witness for C9: saving "new" over a previously saved "old" and reading
the cache back yields "new". -/
theorem save_then_get_roundtrip_witness :
    get_token_from_cache "h"
      (save_token "h" "new" (save_token "h" "old" (FileSystem.mk [] [])))
      = some "new" :=
  save_then_get_roundtrip "h" "new"
    (save_token "h" "old" (FileSystem.mk [] []))
    (by decide) (by decide)

theorem get_token_of_lookup_none (home : String) (fs : FileSystem)
    (h : fs.lookup (get_auth_cache_file_path home) = none) :
    get_token_from_cache home fs = none := by
  unfold get_token_from_cache
  rw [h]

theorem get_token_of_lookup_some (home : String) (fs : FileSystem)
    (f : FsFile) (h : fs.lookup (get_auth_cache_file_path home) = some f) :
    get_token_from_cache home fs = linesNext f.content := by
  unfold get_token_from_cache
  rw [h]

theorem firstLineData_with_nl (l rest : List Char)
    (h : ∀ c ∈ l, c ≠ nlChar) :
    firstLineData (l ++ nlChar :: rest) = (l, true) := by
  induction l with
  | nil => simp [firstLineData]
  | cons c cs ih =>
    have hc : c ≠ nlChar := h c (List.mem_cons_self c cs)
    simp [firstLineData, hc,
      ih fun d hd => h d (List.mem_cons_of_mem c hd)]

theorem linesNext_eq_none_iff (s : String) :
    linesNext s = none ↔ s.data = [] := by
  by_cases h : s.data = [] <;> simp [linesNext, h]

/-- C10: get_token_from_cache is a total function that never fails: it
returns none exactly when the cache file is absent (how the model renders
an unreadable file) or when its content is the empty string (no first
line), and whenever the content splits as a first line followed by a
newline and arbitrary further content, it returns Some of only that first
line, discarding everything after the newline. -/
theorem get_token_from_cache_characterization (home : String)
    (fs : FileSystem) :
    (get_token_from_cache home fs = none ↔
      (fs.lookup (get_auth_cache_file_path home) = none ∨
        ∃ f, fs.lookup (get_auth_cache_file_path home) = some f ∧
          f.content = "")) ∧
    (∀ f : FsFile, ∀ l rest : List Char,
      fs.lookup (get_auth_cache_file_path home) = some f →
      f.content.data = l ++ nlChar :: rest →
      (∀ c ∈ l, c ≠ nlChar) →
      l.getLast? ≠ some crChar →
      get_token_from_cache home fs = some (String.mk l)) := by
  constructor
  · cases hlk : fs.lookup (get_auth_cache_file_path home) with
    | none =>
      rw [get_token_of_lookup_none home fs hlk]
      simp
    | some f =>
      rw [get_token_of_lookup_some home fs f hlk, linesNext_eq_none_iff]
      constructor
      · intro hdata
        exact Or.inr ⟨f, rfl, String.ext hdata⟩
      · rintro (h | ⟨f', hf', hc⟩)
        · cases h
        · cases Option.some.inj hf'
          rw [hc]
  · intro f l rest hlk hdata h hcr
    rw [get_token_of_lookup_some home fs f hlk]
    have hne : f.content.data ≠ [] := by
      rw [hdata]
      simp
    rw [linesNext, if_neg hne, hdata, firstLineData_with_nl l rest h]
    simp [stripCR, hcr]

/-- Witness for C10: a cache file whose content holds three lines yields
only the first one. -/
theorem get_token_from_cache_characterization_witness :
    get_token_from_cache "h"
      (FileSystem.writeFile (FileSystem.mk [] [])
        (get_auth_cache_file_path "h") (FsFile.mk "first\nsecond" 420))
      = some "first" :=
  (get_token_from_cache_characterization "h"
    (FileSystem.writeFile (FileSystem.mk [] [])
      (get_auth_cache_file_path "h") (FsFile.mk "first\nsecond" 420))).2
    (FsFile.mk "first\nsecond" 420) "first".data "second".data
    (lookup_writeFile_self (FileSystem.mk [] [])
      (get_auth_cache_file_path "h") (FsFile.mk "first\nsecond" 420))
    (by decide) (by decide) (by decide)
